import Mathlib

/-!
Verification of the connection-handling engine of the Client-Test repository
(concurrent TCP benchmark servers, C and C++ variants under
`applications/servidor` and `applications/servidor-c`).

The development shallowly embeds the parts of the code that the specification
claims talk about:

* the length-prefixed framing codec (`send_json_message` /
  `receive_json_message` of `app_simple.cpp`, and the variant of
  `app_cjson.c` that additionally allocates a heap buffer);
* the hand-rolled JSON-ish key scanning (`extract_json_value`) and response
  building (`create_json_response`) of `app_simple.cpp` / `app.c`;
* the per-message handler and the worker receive/process/respond loops of
  `app_simple.cpp`, `app_json.cpp` / `app_cjson.c`, and `app.c`;
* the statistics registry transitions and the acceptor ceiling check.

Byte streams are `List Nat` (each element one octet), textual payloads are
`List Char`.  Wall-clock timestamps, the live statistics snapshots embedded
in responses, and the success of socket writes are inputs of the embedded
functions, since they are environmental for the code under verification.
-/

/-! ### Framing codec (app_simple.cpp lines 97-135, app_cjson.c lines 73-110) -/

/-- Buffer size constant shared by every variant (`#define BUFFER_SIZE 4096`). -/
def BUFFER_SIZE : Nat := 4096

/-- Big-endian byte encoding of a 32-bit length, as produced by `htonl` when
the four bytes of the resulting `uint32_t` are written to the stream. -/
def encodeBE32 (n : Nat) : List Nat :=
  [n % 2 ^ 32 / 2 ^ 24, n % 2 ^ 24 / 2 ^ 16, n % 2 ^ 16 / 2 ^ 8, n % 2 ^ 8]

/-- Big-endian decoding of a 4-byte length prefix, as computed by `ntohl`
after `recv(socket, &size, 4, MSG_WAITALL)`.  Any other shape decodes to 0,
mirroring `receive_message_size` returning 0 on a short read. -/
def decodeBE32 : List Nat → Nat
  | [a, b, c, d] => ((a * 256 + b) * 256 + c) * 256 + d
  | _ => 0

/-- `send_json_message` of app_simple.cpp: write the 4-byte big-endian length
of the payload, then the payload bytes.  The result is the byte stream an
error-free sequence of `send` calls puts on the wire. -/
def send_json_message (p : List Nat) : List Nat :=
  encodeBE32 p.length ++ p

/-- `receive_json_message` of app_simple.cpp: read exactly 4 bytes (short
read yields the empty string, modelled as `none`), decode the length, reject
`0` and `> BUFFER_SIZE`, then read exactly that many payload bytes (short
read again yields `none`). -/
def receive_json_message (s : List Nat) : Option (List Nat) :=
  if s.length < 4 then none
  else
    let n := decodeBE32 (s.take 4)
    if n = 0 ∨ n > BUFFER_SIZE then none
    else if s.length - 4 < n then none
    else some ((s.drop 4).take n)

/-- `receive_json_message` of app_cjson.c.  Besides the decoded payload it
returns how many stream bytes the call consumed and how many buffer bytes it
`malloc`ed, so that the oversize-rejection claim about consumption and
allocation is statable.  The length guard of the C code is
`message_size == 0 || message_size > BUFFER_SIZE - 1`, and the `malloc`
happens only after that guard. -/
def receive_json_message_cjson (s : List Nat) : Option (List Nat) × Nat × Nat :=
  if s.length < 4 then (none, s.length, 0)
  else
    let n := decodeBE32 (s.take 4)
    if n = 0 ∨ n > BUFFER_SIZE - 1 then (none, 4, 0)
    else if s.length - 4 < n then (none, 4 + (s.length - 4), n + 1)
    else (some ((s.drop 4).take n), 4 + n, n + 1)

/-- Decoding inverts encoding for lengths that fit in 32 bits. -/
lemma decodeBE32_encodeBE32 (n : Nat) (h : n < 2 ^ 32) :
    decodeBE32 (encodeBE32 n) = n := by
  simp only [encodeBE32, decodeBE32]
  omega

/-- C1: for every byte payload `p` with `0 < len p ≤ BUFFER_SIZE`, writing it
with `send_json_message` (4-byte big-endian length prefix followed by the
payload) and reading the resulting stream back with `receive_json_message`
yields exactly `p`. -/
theorem framing_roundtrip (p : List Nat) (hpos : 0 < p.length)
    (hmax : p.length ≤ BUFFER_SIZE) :
    receive_json_message (send_json_message p) = some p := by
  have hlt : p.length < 2 ^ 32 := by
    have : BUFFER_SIZE < 2 ^ 32 := by decide
    omega
  have hlen4 : (encodeBE32 p.length).length = 4 := by
    simp [encodeBE32]
  have htake : (send_json_message p).take 4 = encodeBE32 p.length := by
    simp [send_json_message, List.take_append_eq_append_take, hlen4]
  have hdrop : (send_json_message p).drop 4 = p := by
    simp [send_json_message, List.drop_append_eq_append_drop, hlen4]
  have hslen : (send_json_message p).length = 4 + p.length := by
    simp [send_json_message, hlen4]
  simp only [receive_json_message, hslen, htake, hdrop,
    decodeBE32_encodeBE32 p.length hlt]
  have h1 : ¬ (4 + p.length < 4) := by omega
  have h2 : ¬ (p.length = 0 ∨ p.length > BUFFER_SIZE) := by omega
  have h3 : ¬ (4 + p.length - 4 < p.length) := by omega
  simp [h1, h2, h3]
  exact ⟨fun he => by simp [he] at hpos, hmax⟩

/-- Witness for C1 at the concrete payload `[10, 20, 30]`. -/
theorem framing_roundtrip_witness :
    0 < ([10, 20, 30] : List Nat).length ∧
      ([10, 20, 30] : List Nat).length ≤ BUFFER_SIZE ∧
      receive_json_message (send_json_message [10, 20, 30]) = some [10, 20, 30] :=
  ⟨by decide, by decide, framing_roundtrip [10, 20, 30] (by decide) (by decide)⟩

/-- C2: whenever the 4-byte prefix decodes to 0 or to a value above the
configured maximum message size (`BUFFER_SIZE - 1` in app_cjson.c), the
reader fails, consumes exactly the 4 prefix bytes of the stream and
allocates nothing: no buffer sized from the declared length is ever read or
allocated. -/
theorem oversize_rejection (s : List Nat) (hlen : 4 ≤ s.length)
    (hbad : decodeBE32 (s.take 4) = 0 ∨ decodeBE32 (s.take 4) > BUFFER_SIZE - 1) :
    receive_json_message_cjson s = (none, 4, 0) := by
  have h1 : ¬ s.length < 4 := by omega
  simp [receive_json_message_cjson, h1, hbad]

/-- Witness for C2: a stream whose prefix declares length 0 is rejected with
4 bytes consumed and 0 bytes allocated, and a stream declaring length 4096
(above the 4095 maximum) likewise. -/
theorem oversize_rejection_witness :
    (4 ≤ ([0, 0, 0, 0, 9] : List Nat).length ∧
      receive_json_message_cjson [0, 0, 0, 0, 9] = (none, 4, 0)) ∧
    (4 ≤ ([0, 0, 16, 0, 9] : List Nat).length ∧
      receive_json_message_cjson [0, 0, 16, 0, 9] = (none, 4, 0)) :=
  ⟨⟨by decide, oversize_rejection [0, 0, 0, 0, 9] (by decide) (by decide)⟩,
   ⟨by decide, oversize_rejection [0, 0, 16, 0, 9] (by decide) (by decide)⟩⟩

/-! ### Hand-rolled JSON scanning (app_simple.cpp lines 52-95, app.c lines 62-109)

Texts are `List Char`.  The fixed pieces of the requests the claims mention
and of the response template written by `create_json_response` are spelled
out as character lists so that the embedded scanner can be evaluated on
them. -/

/-- Key `tipo`, the message-type field name used by the code. -/
def kTipo : List Char :=
  [ 't', 'i', 'p', 'o']

/-- Key `data`. -/
def kData : List Char :=
  [ 'd', 'a', 't', 'a']

/-- Key `timestamp`. -/
def kTimestamp : List Char :=
  [ 't', 'i', 'm', 'e', 's', 't', 'a', 'm', 'p']

/-- Key `client_timestamp` (present in responses only). -/
def kClientTimestamp : List Char :=
  [ 'c', 'l', 'i', 'e', 'n', 't', '_', 't', 'i', 'm', 'e', 's', 't', 'a', 'm', 'p']

/-- The literal `PING`. -/
def pingLit : List Char :=
  [ 'P', 'I', 'N', 'G']

/-- The literal `PONG`. -/
def pongLit : List Char :=
  [ 'P', 'O', 'N', 'G']

/-- The literal `ECHO`. -/
def echoLit : List Char :=
  [ 'E', 'C', 'H', 'O']

/-- The literal `STATS`. -/
def statsLit : List Char :=
  [ 'S', 'T', 'A', 'T', 'S']

/-- The literal `SERVER_STATS`. -/
def statsRespLit : List Char :=
  [ 'S', 'E', 'R', 'V', 'E', 'R', '_', 'S', 'T', 'A', 'T', 'S']

/-- The literal `ACK`. -/
def ackLit : List Char :=
  [ 'A', 'C', 'K']

/-- Prefix test on character lists (the comparison `strstr` performs at each
candidate position). -/
def isPref : List Char → List Char → Bool
  | [], _ => true
  | a :: as, l =>
      match l with
      | [] => false
      | b :: bs => a == b && isPref as bs

/-- Model of C `strstr` / `std::string::find` followed by advancing past the
needle: returns the suffix of the haystack that starts right after the first
occurrence of `needle`, or `none` when there is no occurrence. -/
def dropToMatch : List Char → List Char → Option (List Char)
  | needle, [] => if isPref needle [] then some [] else none
  | needle, c :: t =>
      if isPref needle (c :: t) then some ((c :: t).drop needle.length)
      else dropToMatch needle t

/-- The search key `"key":` that `extract_json_value` builds with
`snprintf(search_key, ..., "\x5c"%s\x5c":", key)`. -/
def searchKey (k : List Char) : List Char := '"' :: (k ++ ( '"' :: ':' :: []))

/-- The value scan of `extract_json_value` once positioned after the search
key and after skipping spaces and tabs: a quoted value runs to the next
quote (missing closing quote yields the empty string), any other value runs
to the next comma or closing brace. -/
def valueAfter : List Char → List Char
  | [] => []
  | c :: rest =>
      if c = '"' then
        if rest.contains '"' then rest.takeWhile (fun x => !(x == '"')) else []
      else (c :: rest).takeWhile (fun x => !(x == ',') && !(x == '}'))

/-- `extract_json_value` of app_simple.cpp: find `"key":`, skip spaces and
tabs, then scan the value; every failure mode returns the empty string. -/
def extract_json_value (json key : List Char) : List Char :=
  match dropToMatch (searchKey key) json with
  | none => []
  | some rest => valueAfter (rest.dropWhile (fun c => c == ' ' || c == '\t'))

/-- Decimal digit character, as produced when the C++ stream inserter or C
`snprintf` renders one digit of a number. -/
def digitChar (d : Nat) : Char :=
  match d with
  | 0 => '0' | 1 => '1' | 2 => '2' | 3 => '3' | 4 => '4'
  | 5 => '5' | 6 => '6' | 7 => '7' | 8 => '8' | _ => '9'

/-- Fuel-driven decimal rendering loop (most significant digit first). -/
def natCharsCore : Nat → Nat → List Char → List Char
  | 0, _, acc => acc
  | fuel + 1, n, acc =>
      if n / 10 = 0 then digitChar (n % 10) :: acc
      else natCharsCore fuel (n / 10) (digitChar (n % 10) :: acc)

/-- Decimal rendering of a natural number, as `operator<<` / `%d` print it. -/
def natChars (n : Nat) : List Char := natCharsCore (n + 1) n []

/-- Decimal rendering of a (possibly negative) integer, as `operator<<` /
`%lld` print a `long long`. -/
def intChars : Int → List Char
  | Int.ofNat n => natChars n
  | Int.negSucc n => '-' :: natChars (n + 1)

/-- Response template chunk `[lcub]"tipo":"RESPONSE","server_timestamp":`
(the brace is the first character). -/
def rA : List Char :=
  [ '{', '"', 't', 'i', 'p', 'o', '"', ':', '"', 'R', 'E', 'S', 'P', 'O', 'N', 'S', 'E', '"',
    ',', '"', 's', 'e', 'r', 'v', 'e', 'r', '_', 't', 'i', 'm', 'e', 's', 't', 'a', 'm', 'p',
    '"', ':']

/-- Response template chunk `,"client_timestamp":`. -/
def rB : List Char :=
  [ ',', '"', 'c', 'l', 'i', 'e', 'n', 't', '_', 't', 'i', 'm', 'e', 's', 't', 'a', 'm', 'p',
    '"', ':']

/-- Response template chunk `,"message_id":`. -/
def rC : List Char :=
  [ ',', '"', 'm', 'e', 's', 's', 'a', 'g', 'e', '_', 'i', 'd', '"', ':']

/-- Response template chunk `,"data":"`. -/
def rD : List Char :=
  [ ',', '"', 'd', 'a', 't', 'a', '"', ':', '"']

/-- Response template chunk `","server_stats":[lcub]"active_connections":`. -/
def rE : List Char :=
  [ '"', ',', '"', 's', 'e', 'r', 'v', 'e', 'r', '_', 's', 't', 'a', 't', 's', '"', ':', '{',
    '"', 'a', 'c', 't', 'i', 'v', 'e', '_', 'c', 'o', 'n', 'n', 'e', 'c', 't', 'i', 'o', 'n',
    's', '"', ':']

/-- Response template chunk `,"total_messages":`. -/
def rF : List Char :=
  [ ',', '"', 't', 'o', 't', 'a', 'l', '_', 'm', 'e', 's', 's', 'a', 'g', 'e', 's', '"', ':']

/-- Response template tail `[rcub][rcub]`. -/
def rG : List Char :=
  [ '}', '}']

/-- `create_json_response` of app_simple.cpp (lines 52-68): the response
text for server timestamp `sts`, echoed client timestamp `cts`, message id
`mid`, payload `data`, and the live snapshot `act` / `tot` of the
`clientes_conectados` and `total_messages` atomics. -/
def create_json_response (sts : Nat) (cts : Int) (mid : Nat) (data : List Char)
    (act tot : Nat) : List Char :=
  rA ++ (natChars sts ++ (rB ++ (intChars cts ++ (rC ++ (natChars mid ++
    (rD ++ (data ++ (rE ++ (natChars act ++ (rF ++ (natChars tot ++ rG)))))))))))

/-- Model of `std::stoll` on the extracted value: skip blanks, accept an
optional sign, then require at least one decimal digit; with no digit the
call throws (`none`).  Digits after the first non-digit are ignored, as
`stoll` stops there. -/
def stollOption (s : List Char) : Option Int :=
  let s1 := s.dropWhile (fun c => c == ' ' || c == '\t' || c == '\n' || c == '\r')
  let signed : Bool × List Char :=
    match s1 with
    | '-' :: r => (true, r)
    | '+' :: r => (false, r)
    | r => (false, r)
  let digs := signed.2.takeWhile (fun c => c.isDigit)
  if digs = [] then none
  else
    let v : Nat := digs.foldl (fun a c => a * 10 + (c.toNat - 48)) 0
    some (if signed.1 then -(v : Int) else (v : Int))

/-- The per-message processing step of `tratarCliente` in app_simple.cpp
(lines 183-207): extract `tipo`, `data` and `timestamp`, convert the
timestamp with `stoll` (an exception propagates to the `catch` block,
modelled as `none`), dispatch on the exact `tipo` string, and build the
response.  `sts`, `act` and `tot` are the wall clock and the two atomics
read while the response is built; `mid` is `messages_from_client`. -/
def app_simple_handle (msg : List Char) (sts act tot mid : Nat) :
    Option (List Char) :=
  let tipo := extract_json_value msg kTipo
  let data := extract_json_value msg kData
  let tsStr := extract_json_value msg kTimestamp
  let ts : Option Int := if tsStr = [] then some 0 else stollOption tsStr
  match ts with
  | none => none
  | some cts =>
      let rdata := if tipo = pingLit then pongLit
                   else if tipo = echoLit then data
                   else if tipo = statsLit then statsRespLit
                   else ackLit
      some (create_json_response sts cts mid rdata act tot)
/-! ### Lemmas about the scanner on the response and request templates -/

/-- The embedded prefix test agrees with `List.isPrefixOf`. -/
lemma isPref_eq_isPrefixOf (l₁ l₂ : List Char) : isPref l₁ l₂ = l₁.isPrefixOf l₂ := by
  induction l₁ generalizing l₂ with
  | nil => cases l₂ <;> rfl
  | cons a as ih =>
      cases l₂ with
      | nil => rfl
      | cons b bs => simp [isPref, List.isPrefixOf, ih]

/-- One search step past a position where the needle does not match. -/
lemma dropToMatch_cons (needle : List Char) (c : Char) (t : List Char)
    (h : isPref needle (c :: t) = false) :
    dropToMatch needle (c :: t) = dropToMatch needle t := by
  simp [dropToMatch, h]

/-- A search key, which starts with a quote, matches nowhere inside a
quote-free segment, so the search skips the whole segment. -/
lemma dropToMatch_skip_quotefree (k xs t : List Char) (h : ∀ c ∈ xs, c ≠ '"') :
    dropToMatch (searchKey k) (xs ++ t) = dropToMatch (searchKey k) t := by
  induction xs with
  | nil => rfl
  | cons c cs ih =>
      have hc : c ≠ '"' := h c (List.mem_cons_self c cs)
      have hb : isPref (searchKey k) (c :: (cs ++ t)) = false := by
        have hcc : ( '"' == c) = false := beq_eq_false_iff_ne.mpr (Ne.symm hc)
        simp [searchKey, isPref, hcc]
      rw [List.cons_append, dropToMatch_cons _ _ _ hb]
      exact ih fun x hx => h x (List.mem_cons_of_mem c hx)

/-- A quote is found in a list that ends with an explicit quote. -/
lemma contains_append_quote (xs r : List Char) :
    (xs ++ '"' :: r).contains '"' = true := by
  have hm : '"' ∈ xs ++ '"' :: r := List.mem_append_right xs (List.mem_cons_self _ _)
  exact List.elem_eq_true_of_mem hm

/-- Scanning up to the closing quote of a quote-free value returns the
value. -/
lemma takeWhile_append_quote (xs r : List Char) (h : ∀ c ∈ xs, c ≠ '"') :
    (xs ++ '"' :: r).takeWhile (fun x => !(x == '"')) = xs := by
  induction xs with
  | nil => simp [List.takeWhile]
  | cons c cs ih =>
      have hc : (c == '"') = false :=
        beq_eq_false_iff_ne.mpr (h c (List.mem_cons_self c cs))
      simp only [List.cons_append, List.takeWhile_cons, hc, Bool.not_false, if_true]
      exact congrArg (c :: ·) (ih fun x hx => h x (List.mem_cons_of_mem c hx))

/-- The quoted-value branch of the scanner on a quote-free value. -/
lemma valueAfter_quoted (data r : List Char) (hd : ∀ c ∈ data, c ≠ '"') :
    valueAfter ( '"' :: (data ++ ( '"' :: r))) = data := by
  simp [valueAfter, contains_append_quote data r, takeWhile_append_quote data r hd]

/-- Decimal digit characters are none of the scanner delimiters. -/
lemma digitChar_ne (d : Nat) :
    digitChar d ≠ '"' ∧ digitChar d ≠ ',' ∧ digitChar d ≠ '}' ∧
      digitChar d ≠ ' ' ∧ digitChar d ≠ '\t' := by
  rcases d with _ | _ | _ | _ | _ | _ | _ | _ | _ | d
  · exact ⟨by decide, by decide, by decide, by decide, by decide⟩
  · exact ⟨by decide, by decide, by decide, by decide, by decide⟩
  · exact ⟨by decide, by decide, by decide, by decide, by decide⟩
  · exact ⟨by decide, by decide, by decide, by decide, by decide⟩
  · exact ⟨by decide, by decide, by decide, by decide, by decide⟩
  · exact ⟨by decide, by decide, by decide, by decide, by decide⟩
  · exact ⟨by decide, by decide, by decide, by decide, by decide⟩
  · exact ⟨by decide, by decide, by decide, by decide, by decide⟩
  · exact ⟨by decide, by decide, by decide, by decide, by decide⟩
  · have h9 : digitChar (d + 9) = '9' := rfl
    rw [h9]
    exact ⟨by decide, by decide, by decide, by decide, by decide⟩

/-- Every character produced by the rendering loop is a digit character or
comes from the accumulator. -/
lemma natCharsCore_sub (fuel : Nat) : ∀ n acc, ∀ c ∈ natCharsCore fuel n acc,
    (∃ d, c = digitChar d) ∨ c ∈ acc := by
  induction fuel with
  | zero => intro n acc c hc; exact Or.inr hc
  | succ f ih =>
      intro n acc c hc
      simp only [natCharsCore] at hc
      split at hc
      · rcases List.mem_cons.mp hc with h | h
        · exact Or.inl ⟨n % 10, h⟩
        · exact Or.inr h
      · rcases ih (n / 10) (digitChar (n % 10) :: acc) c hc with h | h
        · exact Or.inl h
        · rcases List.mem_cons.mp h with h2 | h2
          · exact Or.inl ⟨n % 10, h2⟩
          · exact Or.inr h2

/-- Rendered natural numbers are quote-free. -/
lemma natChars_quotefree (n : Nat) : ∀ c ∈ natChars n, c ≠ '"' := by
  intro c hc
  rcases natCharsCore_sub (n + 1) n [] c hc with ⟨d, rfl⟩ | h
  · exact (digitChar_ne d).1
  · cases h

/-- Rendered integers are quote-free. -/
lemma intChars_quotefree (i : Int) : ∀ c ∈ intChars i, c ≠ '"' := by
  intro c hc
  cases i with
  | ofNat n => exact natChars_quotefree n c hc
  | negSucc n =>
      rcases List.mem_cons.mp hc with h | h
      · subst h; decide
      · exact natChars_quotefree (n + 1) c h

/-- The search for `"data":` finds nothing inside `rA`. -/
lemma drop_rA_data : ∀ t,
    dropToMatch (searchKey kData) (rA ++ t) = dropToMatch (searchKey kData) t :=
  fun _ => rfl

/-- The search for `"data":` finds nothing inside `rB`. -/
lemma drop_rB_data : ∀ t,
    dropToMatch (searchKey kData) (rB ++ t) = dropToMatch (searchKey kData) t :=
  fun _ => rfl

/-- The search for `"data":` finds nothing inside `rC`. -/
lemma drop_rC_data : ∀ t,
    dropToMatch (searchKey kData) (rC ++ t) = dropToMatch (searchKey kData) t :=
  fun _ => rfl

/-- The search for `"data":` matches at the second character of `rD`, and
the value scan resumes at the quote that opens the data value. -/
lemma drop_rD_data : ∀ t, dropToMatch (searchKey kData) (rD ++ t) = some ( '"' :: t) :=
  fun _ => rfl

/-- The search for `"client_timestamp":` finds nothing inside `rA`. -/
lemma drop_rA_cts : ∀ t,
    dropToMatch (searchKey kClientTimestamp) (rA ++ t) =
      dropToMatch (searchKey kClientTimestamp) t :=
  fun _ => rfl

/-- The search for `"client_timestamp":` matches at the second character of
`rB` and the value scan resumes right after it. -/
lemma drop_rB_cts : ∀ t,
    dropToMatch (searchKey kClientTimestamp) (rB ++ t) = some t :=
  fun _ => rfl

/-- Extracting `data` from any response built by `create_json_response`
returns exactly the embedded payload, for every quote-free payload and all
numeric fields. -/
lemma extract_data_create (sts : Nat) (cts : Int) (mid : Nat) (data : List Char)
    (act tot : Nat) (hd : ∀ c ∈ data, c ≠ '"') :
    extract_json_value (create_json_response sts cts mid data act tot) kData = data := by
  have hdrop : dropToMatch (searchKey kData) (create_json_response sts cts mid data act tot)
      = some ( '"' :: (data ++ (rE ++ (natChars act ++ (rF ++ (natChars tot ++ rG)))))) := by
    unfold create_json_response
    rw [drop_rA_data, dropToMatch_skip_quotefree _ _ _ (natChars_quotefree sts),
      drop_rB_data, dropToMatch_skip_quotefree _ _ _ (intChars_quotefree cts),
      drop_rC_data, dropToMatch_skip_quotefree _ _ _ (natChars_quotefree mid),
      drop_rD_data]
  unfold extract_json_value
  rw [hdrop]
  exact valueAfter_quoted data _ hd

/-- Extracting `client_timestamp` from a response that echoes client
timestamp 1000 returns the digits `1000`. -/
lemma extract_cts_create_1000 (sts mid : Nat) (data : List Char) (act tot : Nat) :
    extract_json_value (create_json_response sts 1000 mid data act tot)
      kClientTimestamp = [ '1', '0', '0', '0'] := by
  have hdrop : dropToMatch (searchKey kClientTimestamp)
      (create_json_response sts 1000 mid data act tot)
      = some (intChars 1000 ++ (rC ++ (natChars mid ++ (rD ++ (data ++ (rE ++
          (natChars act ++ (rF ++ (natChars tot ++ rG))))))))) := by
    unfold create_json_response
    rw [drop_rA_cts, dropToMatch_skip_quotefree _ _ _ (natChars_quotefree sts), drop_rB_cts]
  unfold extract_json_value
  rw [hdrop]
  rfl

/-- Extracting `client_timestamp` from a response built with the default
timestamp 0 returns the digit `0`. -/
lemma extract_cts_create_zero (sts mid : Nat) (data : List Char) (act tot : Nat) :
    extract_json_value (create_json_response sts 0 mid data act tot)
      kClientTimestamp = [ '0'] := by
  have hdrop : dropToMatch (searchKey kClientTimestamp)
      (create_json_response sts 0 mid data act tot)
      = some (intChars 0 ++ (rC ++ (natChars mid ++ (rD ++ (data ++ (rE ++
          (natChars act ++ (rF ++ (natChars tot ++ rG))))))))) := by
    unfold create_json_response
    rw [drop_rA_cts, dropToMatch_skip_quotefree _ _ _ (natChars_quotefree sts), drop_rB_cts]
  unfold extract_json_value
  rw [hdrop]
  rfl

/-! ### Request templates used by the claims -/

/-- Fixed prefix of an ECHO request, up to and excluding the quote that
opens the data value: `[lcub]"tipo":"ECHO","data":`. -/
def qA0 : List Char :=
  [ '{', '"', 't', 'i', 'p', 'o', '"', ':', '"', 'E', 'C', 'H', 'O', '"', ',', '"', 'd', 'a',
    't', 'a', '"', ':']

/-- Closing `"[rcub]` of a request whose last field is a quoted value. -/
def qB : List Char :=
  [ '"', '}']

/-- The ECHO request `[lcub]"tipo":"ECHO","data":"s"[rcub]` for payload `s`. -/
def echoReq (s : List Char) : List Char := qA0 ++ ( '"' :: (s ++ qB))

/-- The request `[lcub]"tipo":"PING","timestamp":1000[rcub]`. -/
def pingReq1000 : List Char :=
  [ '{', '"', 't', 'i', 'p', 'o', '"', ':', '"', 'P', 'I', 'N', 'G', '"', ',', '"', 't', 'i',
    'm', 'e', 's', 't', 'a', 'm', 'p', '"', ':', '1', '0', '0', '0', '}']

/-- The request `[lcub]"tipo":"PING"[rcub]` with no timestamp field. -/
def pingReqNoTs : List Char :=
  [ '{', '"', 't', 'i', 'p', 'o', '"', ':', '"', 'P', 'I', 'N', 'G', '"', '}']

/-- The request `[lcub]"tipo":"STATS"[rcub]`. -/
def statsReq : List Char :=
  [ '{', '"', 't', 'i', 'p', 'o', '"', ':', '"', 'S', 'T', 'A', 'T', 'S', '"', '}']

/-- The spec-spelled request `[lcub]"type":"PING","timestamp":1000[rcub]`,
with the field named `type` as the specification writes it. -/
def typePingReq : List Char :=
  [ '{', '"', 't', 'y', 'p', 'e', '"', ':', '"', 'P', 'I', 'N', 'G', '"', ',', '"', 't', 'i',
    'm', 'e', 's', 't', 'a', 'm', 'p', '"', ':', '1', '0', '0', '0', '}']

/-- The spec-spelled request `[lcub]"type":"ECHO","data":"hello"[rcub]`. -/
def typeEchoReq : List Char :=
  [ '{', '"', 't', 'y', 'p', 'e', '"', ':', '"', 'E', 'C', 'H', 'O', '"', ',', '"', 'd', 'a',
    't', 'a', '"', ':', '"', 'h', 'e', 'l', 'l', 'o', '"', '}']

/-- The request `[lcub]"tipo":"ping","timestamp":1000[rcub]` with a
lower-case type value. -/
def lowerPingReq : List Char :=
  [ '{', '"', 't', 'i', 'p', 'o', '"', ':', '"', 'p', 'i', 'n', 'g', '"', ',', '"', 't', 'i',
    'm', 'e', 's', 't', 'a', 'm', 'p', '"', ':', '1', '0', '0', '0', '}']

/-- The request `[lcub]"tipo":"PING","timestamp":x[rcub]`, whose timestamp
value makes `stoll` throw. -/
def badTsReq : List Char :=
  [ '{', '"', 't', 'i', 'p', 'o', '"', ':', '"', 'P', 'I', 'N', 'G', '"', ',', '"', 't', 'i',
    'm', 'e', 's', 't', 'a', 'm', 'p', '"', ':', 'x', '}']

/-- The literal `hello`. -/
def helloLit : List Char :=
  [ 'h', 'e', 'l', 'l', 'o']

/-- The `data` field of the response produced by the app_simple handler, the
observable that the PING, ECHO and dispatch claims constrain. -/
def handled_data (msg : List Char) (sts act tot mid : Nat) : Option (List Char) :=
  (app_simple_handle msg sts act tot mid).map fun r => extract_json_value r kData

/-- The `client_timestamp` field of the response produced by the app_simple
handler. -/
def handled_cts (msg : List Char) (sts act tot mid : Nat) : Option (List Char) :=
  (app_simple_handle msg sts act tot mid).map fun r => extract_json_value r kClientTimestamp

/-- The type extraction on an ECHO request never looks at the payload. -/
lemma extract_tipo_echoReq (s : List Char) :
    extract_json_value (echoReq s) kTipo = echoLit := rfl

/-- The search for `"data":` on an ECHO request stops at the quote that
opens the payload. -/
lemma drop_echoReq_data (s : List Char) :
    dropToMatch (searchKey kData) (echoReq s) = some ( '"' :: (s ++ qB)) := rfl

/-- Extracting `data` from an ECHO request recovers the quote-free payload. -/
lemma extract_data_echoReq (s : List Char) (hs : ∀ c ∈ s, c ≠ '"') :
    extract_json_value (echoReq s) kData = s := by
  unfold extract_json_value
  rw [drop_echoReq_data]
  exact valueAfter_quoted s ( '}' :: []) hs

/-- The tail `timestamp":` of the timestamp search key is never a prefix of
`s"[rcub]` when `s` is quote-free: the quote inside the key cannot be
produced by `s`, and aligning it with the closing quote leaves `:` facing
`[rcub]`. -/
lemma tsTail_not_isPref (s : List Char) (hs : ∀ c ∈ s, c ≠ '"') :
    isPref (kTimestamp ++ ( '"' :: ':' :: [])) (s ++ qB) = false := by
  rw [isPref_eq_isPrefixOf]
  by_contra hcon
  have htrue : (kTimestamp ++ ( '"' :: ':' :: [])).isPrefixOf (s ++ qB) = true := by
    revert hcon
    cases (kTimestamp ++ ( '"' :: ':' :: [])).isPrefixOf (s ++ qB) <;> simp
  have hpre : (kTimestamp ++ ( '"' :: ':' :: [])) <+: (s ++ qB) :=
    List.isPrefixOf_iff_prefix.mp htrue
  obtain ⟨t, ht⟩ := hpre
  have hlen := congrArg List.length ht
  simp [kTimestamp, qB] at hlen
  rcases Nat.lt_or_ge s.length 10 with h10 | h10
  · -- forces s.length = 9, compare position 10: needle has the colon, the
    -- stream has the closing brace
    have hs9 : s.length = 9 := by omega
    have e1 : ((kTimestamp ++ ( '"' :: ':' :: [])) ++ t)[10]? = some ':' := by
      rw [List.getElem?_append_left (by simp [kTimestamp])]
      rfl
    have e2 : (s ++ qB)[10]? = some '}' := by
      rw [List.getElem?_append_right (by omega), hs9]
      rfl
    rw [ht, e2] at e1
    exact absurd (Option.some.inj e1) (by decide)
  · -- s is at least 10 characters long, so position 9 of the stream lies in
    -- s, yet the needle has a quote there
    have e1 : ((kTimestamp ++ ( '"' :: ':' :: [])) ++ t)[9]? = some '"' := by
      rw [List.getElem?_append_left (by simp [kTimestamp])]
      rfl
    have h9 : 9 < s.length := by omega
    have e2 : (s ++ qB)[9]? = some s[9] := by
      rw [List.getElem?_append_left h9]
      exact List.getElem?_eq_getElem h9
    rw [ht, e2] at e1
    exact hs s[9] (List.getElem_mem h9) (Option.some.inj e1)

/-- The timestamp search passes over the concrete prefix of an ECHO
request. -/
lemma drop_qA0_ts : ∀ t,
    dropToMatch (searchKey kTimestamp) (qA0 ++ t) = dropToMatch (searchKey kTimestamp) t :=
  fun _ => rfl

/-- An ECHO request with a quote-free payload has no timestamp field. -/
lemma extract_ts_echoReq (s : List Char) (hs : ∀ c ∈ s, c ≠ '"') :
    extract_json_value (echoReq s) kTimestamp = [] := by
  unfold extract_json_value
  rw [show echoReq s = qA0 ++ ( '"' :: (s ++ qB)) from rfl, drop_qA0_ts]
  have hstep : isPref (searchKey kTimestamp) ( '"' :: (s ++ qB)) = false := by
    show (( '"' == '"') && isPref (kTimestamp ++ ( '"' :: ':' :: [])) (s ++ qB)) = false
    simp [tsTail_not_isPref s hs]
  rw [dropToMatch_cons _ _ _ hstep, dropToMatch_skip_quotefree kTimestamp s qB hs]
  rfl

/-! ### PING, ECHO and dispatch claims (app_simple.cpp lines 183-207) -/

/-- C3 counterexample: the handler processes the request exactly as the
claim spells it, `[lcub]"type":"PING","timestamp":1000[rcub]`, but the code
scans for the field name `tipo`, finds none, falls through to the default
rule, and the response carries `data == "ACK"`, not `"PONG"`. -/
theorem ping_type_request_gets_ack :
    handled_data typePingReq 0 0 0 1 = some ackLit ∧ ackLit ≠ pongLit :=
  ⟨rfl, by decide⟩

/-- C3 amended: with the field named `tipo` as the code spells it, the
request `[lcub]"tipo":"PING","timestamp":1000[rcub]` always yields a
response whose `data` field is `PONG` and whose `client_timestamp` field is
`1000`; without a timestamp field the echoed timestamp defaults to `0`. -/
theorem ping_roundtrip_tipo (sts act tot mid : Nat) :
    handled_data pingReq1000 sts act tot mid = some pongLit
    ∧ handled_cts pingReq1000 sts act tot mid = some [ '1', '0', '0', '0']
    ∧ handled_cts pingReqNoTs sts act tot mid = some [ '0'] := by
  have h1 : app_simple_handle pingReq1000 sts act tot mid
      = some (create_json_response sts 1000 mid pongLit act tot) := rfl
  have h2 : app_simple_handle pingReqNoTs sts act tot mid
      = some (create_json_response sts 0 mid pongLit act tot) := rfl
  refine ⟨?_, ?_, ?_⟩
  · simp only [handled_data, h1, Option.map_some]
    exact congrArg some (extract_data_create sts 1000 mid pongLit act tot (by decide))
  · simp only [handled_cts, h1, Option.map_some]
    exact congrArg some (extract_cts_create_1000 sts mid pongLit act tot)
  · simp only [handled_cts, h2, Option.map_some]
    exact congrArg some (extract_cts_create_zero sts mid pongLit act tot)

/-- C4 counterexample: the ECHO request exactly as the claim spells it,
`[lcub]"type":"ECHO","data":"hello"[rcub]`, is answered with
`data == "ACK"` rather than the submitted string, because the code scans for
the field name `tipo`. -/
theorem echo_type_request_gets_ack :
    handled_data typeEchoReq 0 0 0 1 = some ackLit ∧ ackLit ≠ helloLit :=
  ⟨rfl, by decide⟩

/-- C4 amended: for every quote-free string `s`, the request
`[lcub]"tipo":"ECHO","data":"s"[rcub]` (field named `tipo` as the code
spells it) yields a response whose `data` field is exactly `s`.  The
quote-free restriction is forced by the hand-rolled scanner, which ends a
quoted value at the first quote character. -/
theorem echo_identity_tipo (s : List Char) (hs : ∀ c ∈ s, c ≠ '"')
    (sts act tot mid : Nat) :
    handled_data (echoReq s) sts act tot mid = some s := by
  have hh : app_simple_handle (echoReq s) sts act tot mid
      = some (create_json_response sts 0 mid s act tot) := by
    simp only [app_simple_handle, extract_tipo_echoReq s, extract_data_echoReq s hs,
      extract_ts_echoReq s hs, if_true, if_neg (show ¬ echoLit = pingLit from by decide)]
  simp only [handled_data, hh, Option.map_some]
  exact congrArg some (extract_data_create sts 0 mid s act tot hs)

/-- Witness for C4 amended at the concrete payload `hello`. -/
theorem echo_identity_tipo_witness :
    (∀ c ∈ helloLit, c ≠ '"') ∧ handled_data (echoReq helloLit) 0 0 0 1 = some helloLit :=
  ⟨by decide, echo_identity_tipo helloLit (by decide) 0 0 0 1⟩

/-- C8 counterexample: dispatch is not case-insensitive.  The request
`[lcub]"tipo":"ping","timestamp":1000[rcub]`, whose type equals `PING` under
case-insensitive comparison, is answered with `data == "ACK"`, not the PING
response `"PONG"`. -/
theorem dispatch_lowercase_ping_gets_ack :
    handled_data lowerPingReq 0 0 0 1 = some ackLit ∧ ackLit ≠ pongLit :=
  ⟨rfl, by decide⟩

/-- C8 amended: dispatch on the `tipo` field is case-sensitive exact string
comparison, first matching rule wins: `PING` (upper case) yields the PING
response, `ECHO` echoes the data, `STATS` yields the stats response, and the
lower-case spelling `ping` falls through to the default `ACK` rule. -/
theorem dispatch_exact_match (sts act tot mid : Nat) :
    handled_data pingReq1000 sts act tot mid = some pongLit
    ∧ handled_data (echoReq helloLit) sts act tot mid = some helloLit
    ∧ handled_data statsReq sts act tot mid = some statsRespLit
    ∧ handled_data lowerPingReq sts act tot mid = some ackLit := by
  have h1 : app_simple_handle pingReq1000 sts act tot mid
      = some (create_json_response sts 1000 mid pongLit act tot) := rfl
  have h2 : app_simple_handle (echoReq helloLit) sts act tot mid
      = some (create_json_response sts 0 mid helloLit act tot) := rfl
  have h3 : app_simple_handle statsReq sts act tot mid
      = some (create_json_response sts 0 mid statsRespLit act tot) := rfl
  have h4 : app_simple_handle lowerPingReq sts act tot mid
      = some (create_json_response sts 1000 mid ackLit act tot) := rfl
  refine ⟨?_, ?_, ?_, ?_⟩
  · simp only [handled_data, h1, Option.map_some]
    exact congrArg some (extract_data_create sts 1000 mid pongLit act tot (by decide))
  · simp only [handled_data, h2, Option.map_some]
    exact congrArg some (extract_data_create sts 0 mid helloLit act tot (by decide))
  · simp only [handled_data, h3, Option.map_some]
    exact congrArg some (extract_data_create sts 0 mid statsRespLit act tot (by decide))
  · simp only [handled_data, h4, Option.map_some]
    exact congrArg some (extract_data_create sts 1000 mid ackLit act tot (by decide))
/-! ### Worker receive/process/respond loops

The loop of `tratarCliente` in app_json.cpp (lines 126-218) and app_cjson.c
(lines 169-256) is embedded as a fold over the events of one connection.
Each framed message that arrives is either one the JSON library rejects
(`parseFail`: `reader.parse` / `cJSON_Parse` fails), one whose processing
throws (`procError`: the catch-and-break path of app_json.cpp), or a parsed
message together with the success of the response write (`parsed sendOk`).
The payload content influences none of the counters, so it is not carried.
An event list ends when the framed read reports disconnect. -/

/-- Connection-local view of the counters touched by the app_json worker:
`msgs` is `messages_from_client`, `atomicTotal` the global atomic bumped on
receipt, `statsTotal` the registry field bumped after a successful send,
`errors` the registry error counter, and `sentIds` the `message_id` values
of the responses actually written, in order. -/
structure JConnState where
  msgs : Nat
  atomicTotal : Nat
  statsTotal : Nat
  errors : Nat
  sentIds : List Nat
deriving Repr, DecidableEq

/-- One connection event of the app_json / app_cjson worker loop. -/
inductive JEvent
  | parseFail : JEvent
  | procError : JEvent
  | parsed : Bool → JEvent
deriving Repr, DecidableEq

/-- The worker loop of app_json.cpp: on each framed message increment
`messages_from_client` and the atomic total; a parse failure increments the
error counter and continues with no response; a processing exception
increments the error counter and breaks; otherwise the response (carrying
`message_id = messages_from_client`) is written, a failed write breaks, and
a successful write bumps the registry total. -/
def app_json_run : List JEvent → JConnState → JConnState
  | [], st => st
  | e :: rest, st =>
      let st1 : JConnState :=
        { st with
          msgs := st.msgs + 1
          atomicTotal := st.atomicTotal + 1 }
      match e with
      | .parseFail => app_json_run rest { st1 with errors := st1.errors + 1 }
      | .procError => { st1 with errors := st1.errors + 1 }
      | .parsed sendOk =>
          if sendOk then
            app_json_run rest
              { st1 with
                statsTotal := st1.statsTotal + 1
                sentIds := st1.sentIds ++ [st1.msgs] }
          else st1

/-- The initial per-connection state. -/
def jInit : JConnState := ⟨0, 0, 0, 0, []⟩

/-- C5: in the worker loop, a message whose payload fails to parse
increments the error counter, produces no response (`sentIds` untouched at
this step), and the connection continues: the remaining events are processed
from the bumped state exactly as if the bad message had never arrived. -/
theorem parse_failure_drops_and_continues (rest : List JEvent) (st : JConnState) :
    app_json_run (JEvent.parseFail :: rest) st =
      app_json_run rest
        { st with
          msgs := st.msgs + 1
          atomicTotal := st.atomicTotal + 1
          errors := st.errors + 1 } := rfl

/-- C9: in the worker loop of app_json.cpp, the registry total-messages
counter advances in lockstep with the list of successfully written
responses: however a connection interleaves parse failures, processing
errors, and failed or successful writes, the increase of `statsTotal` equals
the number of responses written. -/
theorem total_messages_counts_sent (evs : List JEvent) (st : JConnState) :
    (app_json_run evs st).statsTotal + st.sentIds.length
      = (app_json_run evs st).sentIds.length + st.statsTotal := by
  induction evs generalizing st with
  | nil => exact Nat.add_comm _ _
  | cons e rest ih =>
      cases e with
      | parseFail =>
          exact ih
            { st with
              msgs := st.msgs + 1
              atomicTotal := st.atomicTotal + 1
              errors := st.errors + 1 }
      | procError => exact Nat.add_comm _ _
      | parsed sendOk =>
          cases sendOk with
          | false => exact Nat.add_comm _ _
          | true =>
              have h := ih
                { st with
                  msgs := st.msgs + 1
                  atomicTotal := st.atomicTotal + 1
                  statsTotal := st.statsTotal + 1
                  sentIds := st.sentIds ++ [st.msgs + 1] }
              simp only [List.length_append, List.length_cons, List.length_nil] at h
              show (app_json_run rest
                { st with
                  msgs := st.msgs + 1
                  atomicTotal := st.atomicTotal + 1
                  statsTotal := st.statsTotal + 1
                  sentIds := st.sentIds ++ [st.msgs + 1] }).statsTotal + st.sentIds.length
                = (app_json_run rest
                    { st with
                      msgs := st.msgs + 1
                      atomicTotal := st.atomicTotal + 1
                      statsTotal := st.statsTotal + 1
                      sentIds := st.sentIds ++ [st.msgs + 1] }).sentIds.length + st.statsTotal
              omega

/-- Number of framed messages the worker actually consumes from an event
list before the connection ends (a processing error or failed write breaks
the loop). -/
def consumedCount : List JEvent → Nat
  | [] => 0
  | .parseFail :: rest => consumedCount rest + 1
  | .procError :: _ => 1
  | .parsed s :: rest => if s then consumedCount rest + 1 else 1

/-- The `message_id` values the worker sends, starting from per-connection
counter value `k`: the n-th framed message carries id `k + n`, and messages
that fail to parse consume an id without producing a response. -/
def expectedIds : List JEvent → Nat → List Nat
  | [], _ => []
  | .parseFail :: rest, k => expectedIds rest (k + 1)
  | .procError :: _, _ => []
  | .parsed s :: rest, k => if s then (k + 1) :: expectedIds rest (k + 1) else []

/-- C10: the per-connection message counter is incremented on every framed
message received, including dropped unparseable ones, so the n-th framed
message of a connection carries `message_id = n` and the ids of the
responses actually written may skip values: a connection that receives
parsed, unparseable, parsed answers with ids 1 and 3. -/
theorem message_ids_count_all_framed (evs : List JEvent) (st : JConnState) :
    ((app_json_run evs st).msgs = st.msgs + consumedCount evs
      ∧ (app_json_run evs st).sentIds = st.sentIds ++ expectedIds evs st.msgs)
    ∧ (app_json_run [JEvent.parsed true, JEvent.parseFail, JEvent.parsed true]
        jInit).sentIds = [1, 3] := by
  refine ⟨?_, rfl⟩
  induction evs generalizing st with
  | nil => exact ⟨rfl, (List.append_nil _).symm⟩
  | cons e rest ih =>
      cases e with
      | parseFail =>
          have h := ih
            { st with
              msgs := st.msgs + 1
              atomicTotal := st.atomicTotal + 1
              errors := st.errors + 1 }
          constructor
          · show (app_json_run rest
              { st with
                msgs := st.msgs + 1
                atomicTotal := st.atomicTotal + 1
                errors := st.errors + 1 }).msgs = st.msgs + consumedCount (JEvent.parseFail :: rest)
            rw [h.1]
            show st.msgs + 1 + consumedCount rest = st.msgs + (consumedCount rest + 1)
            omega
          · show (app_json_run rest
              { st with
                msgs := st.msgs + 1
                atomicTotal := st.atomicTotal + 1
                errors := st.errors + 1 }).sentIds
              = st.sentIds ++ expectedIds (JEvent.parseFail :: rest) st.msgs
            rw [h.2]
            exact rfl
      | procError => exact ⟨rfl, (List.append_nil _).symm⟩
      | parsed sendOk =>
          cases sendOk with
          | false => exact ⟨rfl, (List.append_nil _).symm⟩
          | true =>
              have h := ih
                { st with
                  msgs := st.msgs + 1
                  atomicTotal := st.atomicTotal + 1
                  statsTotal := st.statsTotal + 1
                  sentIds := st.sentIds ++ [st.msgs + 1] }
              constructor
              · show (app_json_run rest
                  { st with
                    msgs := st.msgs + 1
                    atomicTotal := st.atomicTotal + 1
                    statsTotal := st.statsTotal + 1
                    sentIds := st.sentIds ++ [st.msgs + 1] }).msgs
                  = st.msgs + consumedCount (JEvent.parsed true :: rest)
                rw [h.1]
                show st.msgs + 1 + consumedCount rest
                  = st.msgs + (consumedCount rest + 1)
                omega
              · show (app_json_run rest
                  { st with
                    msgs := st.msgs + 1
                    atomicTotal := st.atomicTotal + 1
                    statsTotal := st.statsTotal + 1
                    sentIds := st.sentIds ++ [st.msgs + 1] }).sentIds
                  = st.sentIds ++ expectedIds (JEvent.parsed true :: rest) st.msgs
                rw [h.2]
                show (st.sentIds ++ [st.msgs + 1]) ++ expectedIds rest (st.msgs + 1)
                  = st.sentIds ++ ((st.msgs + 1) :: expectedIds rest (st.msgs + 1))
                simp

/-! ### Worker loop of app.c (lines 196-254) and of app_simple.cpp
(lines 171-242) -/

/-- Connection-local view of the counters touched by the app.c worker:
`msgs` is `messages_from_client`, `totalMessages` the registry counter
`server_stats.total_messages`, `responsesSent` the number of responses whose
write succeeded. -/
structure CConnState where
  msgs : Nat
  totalMessages : Nat
  responsesSent : Nat
deriving Repr, DecidableEq

/-- The worker loop of app.c: immediately after a framed message is
received, both `messages_from_client` and the registry total are
incremented (lines 205-206); the hand-rolled extraction cannot fail and
`strtoll` does not throw, so a response is always attempted; a failed write
breaks the loop after the counters were already bumped.  Each list element
is the write outcome for one received message. -/
def app_c_run : List Bool → CConnState → CConnState
  | [], st => st
  | sendOk :: rest, st =>
      let st1 : CConnState :=
        { st with
          msgs := st.msgs + 1
          totalMessages := st.totalMessages + 1 }
      if sendOk then app_c_run rest { st1 with responsesSent := st1.responsesSent + 1 }
      else st1

/-- C9 counterexample: in app.c a connection that receives one framed
message whose response write fails terminates having successfully responded
to zero messages, yet the registry total-messages counter has increased by
one: the counter counts received messages, not successfully written
responses. -/
theorem total_messages_despite_failed_send_app_c :
    (app_c_run [false] ⟨0, 0, 0⟩).totalMessages = 1
    ∧ (app_c_run [false] ⟨0, 0, 0⟩).responsesSent = 0 :=
  ⟨rfl, rfl⟩

/-- Connection-local view of the counters touched by the app_simple.cpp
worker, together with the responses it wrote. -/
structure SConnState where
  msgs : Nat
  atomicTotal : Nat
  statsTotal : Nat
  errors : Nat
  responses : List (List Char)
deriving Repr, DecidableEq

/-- The worker loop of app_simple.cpp: each framed message bumps
`messages_from_client` and the atomic total, then the message is processed
by `app_simple_handle`; when `stoll` throws, the catch block increments the
error counter and breaks out of the loop, so the connection ends; otherwise
the response is written (a failure breaks), and after a successful write the
registry total is bumped.  Each list element is one received message
together with its write outcome. -/
def app_simple_run (sts act tot : Nat) : List (List Char × Bool) → SConnState → SConnState
  | [], st => st
  | (raw, sendOk) :: rest, st =>
      let st1 : SConnState :=
        { st with
          msgs := st.msgs + 1
          atomicTotal := st.atomicTotal + 1 }
      match app_simple_handle raw sts act tot st1.msgs with
      | none => { st1 with errors := st1.errors + 1 }
      | some resp =>
          if sendOk then
            app_simple_run sts act tot rest
              { st1 with
                statsTotal := st1.statsTotal + 1
                responses := st1.responses ++ [resp] }
          else st1

/-- C5 counterexample: in app_simple.cpp a malformed message is fatal to the
connection.  The request `[lcub]"tipo":"PING","timestamp":x[rcub]` fails
numeric parsing, the worker increments the error counter and sends no
response, but it then breaks out of the loop: a second, well-formed message
queued behind it is never processed (`msgs` stays 1), so the connection does
not continue as the claim requires. -/
theorem malformed_message_fatal_app_simple :
    app_simple_run 0 0 0 [(badTsReq, true), (pingReq1000, true)] ⟨0, 0, 0, 0, []⟩
      = ⟨1, 1, 0, 1, []⟩ :=
  rfl

/-! ### Statistics registry (app_cjson.c lines 149-160 and 269-276,
app.c lines 177-184 and 258-265)

The registry transitions are embedded as a sequential transition system:
each worker transition (the code executed under the registry mutexes) is one
atomic step, and a run of the server is a list of such steps.  In this
sequential model the `clientes_conectados` counter always equals
`active_threads`, so the connect transition reconsiders the peak against the
incremented active count, exactly as the locked blocks do. -/

/-- The process-wide `ServerStats` counters. -/
structure ServerStatsR where
  totalConnections : Nat
  totalMessages : Nat
  activeThreads : Nat
  peakConnections : Nat
  errors : Nat
deriving Repr, DecidableEq

/-- The all-zero state the server starts with. -/
def statsInit : ServerStatsR := ⟨0, 0, 0, 0, 0⟩

/-- One registry transition: a worker registering a new connection, a worker
deregistering on exit, a processed message, or a recorded error. -/
inductive StatOp
  | connect : StatOp
  | disconnect : StatOp
  | message : StatOp
  | error : StatOp
deriving Repr, DecidableEq

/-- Apply one transition: `connect` increments total and active and
reconsiders the peak against the new active count under the same lock;
`disconnect` decrements active; the others touch their own counter. -/
def applyStatOp (s : ServerStatsR) : StatOp → ServerStatsR
  | .connect =>
      { s with
        totalConnections := s.totalConnections + 1
        activeThreads := s.activeThreads + 1
        peakConnections :=
          if s.peakConnections < s.activeThreads + 1 then s.activeThreads + 1
          else s.peakConnections }
  | .disconnect => { s with activeThreads := s.activeThreads - 1 }
  | .message => { s with totalMessages := s.totalMessages + 1 }
  | .error => { s with errors := s.errors + 1 }

/-- Fold a list of transitions over a state. -/
def applyStatOps (s : ServerStatsR) : List StatOp → ServerStatsR
  | [] => s
  | op :: ops => applyStatOps (applyStatOp s op) ops

/-- Connect transitions in a run. -/
def connectCount : List StatOp → Nat
  | [] => 0
  | .connect :: ops => connectCount ops + 1
  | _ :: ops => connectCount ops

/-- Disconnect transitions in a run. -/
def disconnectCount : List StatOp → Nat
  | [] => 0
  | .disconnect :: ops => disconnectCount ops + 1
  | _ :: ops => disconnectCount ops

/-- A run is well-formed from active count `a` when every disconnect is
performed by a worker that had registered: no disconnect happens with zero
active workers. -/
def validOps : Nat → List StatOp → Bool
  | _, [] => true
  | a, .connect :: ops => validOps (a + 1) ops
  | a, .disconnect :: ops => decide (0 < a) && validOps (a - 1) ops
  | a, _ :: ops => validOps a ops

/-- Invariant preservation along any well-formed run, from any state whose
peak dominates its active count and whose active count matches the run. -/
lemma statOps_invariant (ops : List StatOp) :
    ∀ s : ServerStatsR, validOps s.activeThreads ops = true →
      s.activeThreads ≤ s.peakConnections →
      (applyStatOps s ops).activeThreads + disconnectCount ops
          = s.activeThreads + connectCount ops
        ∧ (applyStatOps s ops).totalConnections
          = s.totalConnections + connectCount ops
        ∧ (applyStatOps s ops).activeThreads ≤ (applyStatOps s ops).peakConnections := by
  induction ops with
  | nil =>
      intro s _ hpeak
      exact ⟨rfl, rfl, hpeak⟩
  | cons op ops ih =>
      intro s hvalid hpeak
      cases op with
      | connect =>
          have h := ih (applyStatOp s .connect) (by exact hvalid)
            (by simp only [applyStatOp]; split <;> omega)
          simp only [applyStatOps, connectCount, disconnectCount] at h ⊢
          refine ⟨?_, ?_, h.2.2⟩ <;>
            · have h1 := h.1
              have h2 := h.2.1
              simp only [applyStatOp] at h1 h2 ⊢
              omega
      | disconnect =>
          have hv : 0 < s.activeThreads ∧ validOps (s.activeThreads - 1) ops = true := by
            simpa [validOps] using hvalid
          have h := ih (applyStatOp s .disconnect) (by exact hv.2)
            (by simp only [applyStatOp]; omega)
          simp only [applyStatOps, connectCount, disconnectCount] at h ⊢
          refine ⟨?_, ?_, h.2.2⟩ <;>
            · have h1 := h.1
              have h2 := h.2.1
              have h0 := hv.1
              simp only [applyStatOp] at h1 h2 ⊢
              omega
      | message =>
          have h := ih (applyStatOp s .message) (by exact hvalid) (by exact hpeak)
          simpa [applyStatOps, connectCount, disconnectCount, applyStatOp] using h
      | error =>
          have h := ih (applyStatOp s .error) (by exact hvalid) (by exact hpeak)
          simpa [applyStatOps, connectCount, disconnectCount, applyStatOp] using h

/-- C6: along every well-formed run of registry transitions from the all-zero
start state, the active-worker count equals total accepted connections minus
total completed connections (equivalently, `active + completed = accepted`,
and `total_connections` counts the accepted ones), and after every update the
recorded peak dominates the active count: connect and disconnect transitions
preserve the invariant at every observation point. -/
theorem stats_invariant (ops : List StatOp) (hvalid : validOps 0 ops = true) :
    (applyStatOps statsInit ops).activeThreads + disconnectCount ops = connectCount ops
    ∧ (applyStatOps statsInit ops).totalConnections = connectCount ops
    ∧ (applyStatOps statsInit ops).activeThreads
        ≤ (applyStatOps statsInit ops).peakConnections := by
  have h := statOps_invariant ops statsInit hvalid (by decide)
  simpa [statsInit] using h

/-- Witness for C6 on the run connect, connect, message, disconnect: two
accepted, one completed, one active at the end, peak two. -/
theorem stats_invariant_witness :
    validOps 0 [StatOp.connect, StatOp.connect, StatOp.message, StatOp.disconnect] = true
    ∧ ((applyStatOps statsInit
          [StatOp.connect, StatOp.connect, StatOp.message, StatOp.disconnect]).activeThreads
        + disconnectCount [StatOp.connect, StatOp.connect, StatOp.message, StatOp.disconnect]
        = connectCount [StatOp.connect, StatOp.connect, StatOp.message, StatOp.disconnect]
      ∧ (applyStatOps statsInit
          [StatOp.connect, StatOp.connect, StatOp.message, StatOp.disconnect]).totalConnections
        = connectCount [StatOp.connect, StatOp.connect, StatOp.message, StatOp.disconnect]
      ∧ (applyStatOps statsInit
          [StatOp.connect, StatOp.connect, StatOp.message, StatOp.disconnect]).activeThreads
        ≤ (applyStatOps statsInit
            [StatOp.connect, StatOp.connect, StatOp.message, StatOp.disconnect]).peakConnections) :=
  ⟨by decide,
   stats_invariant [StatOp.connect, StatOp.connect, StatOp.message, StatOp.disconnect]
     (by decide)⟩

/-! ### Acceptor ceiling check (app_cjson.c lines 349-367) -/

/-- The thread ceiling of app_cjson.c (`#define MAX_THREADS 100`). -/
def MAX_THREADS : Nat := 100

/-- What the accept loop does with a freshly accepted socket. -/
inductive AcceptAction
  | rejected : AcceptAction
  | spawned : AcceptAction
deriving Repr, DecidableEq

/-- The post-accept decision of `main` in app_cjson.c: if
`server_stats.active_threads >= MAX_THREADS`, close the socket and continue
(no worker is created and no counter is touched); otherwise hand the socket
to a new worker (whose own lifecycle, not the acceptor, updates the
registry). -/
def acceptor_step (s : ServerStatsR) : AcceptAction × ServerStatsR :=
  if MAX_THREADS ≤ s.activeThreads then (.rejected, s) else (.spawned, s)

/-- C7 counterexample: at the ceiling the rejected socket leaves the whole
statistics state unchanged, so while the rejection is not counted as an
error, it is not counted anywhere else either: the registry has no rejection
counter, and the claim that the rejection is counted is false. -/
theorem rejection_not_counted :
    acceptor_step ⟨7, 42, 100, 100, 3⟩ = (AcceptAction.rejected, ⟨7, 42, 100, 100, 3⟩) :=
  rfl

/-- C7 amended: whenever the active-worker count has reached the ceiling,
the next accepted socket is rejected: it is closed immediately without
entering the worker lifecycle, and the whole statistics state, in particular
`active_threads` and `errors`, is unchanged; the rejection is only logged,
not counted, since no rejection counter exists. -/
theorem ceiling_rejection (s : ServerStatsR) (h : MAX_THREADS ≤ s.activeThreads) :
    acceptor_step s = (AcceptAction.rejected, s) := by
  simp [acceptor_step, h]

/-- Witness for C7 amended at a concrete saturated state. -/
theorem ceiling_rejection_witness :
    MAX_THREADS ≤ (⟨5, 9, 100, 120, 2⟩ : ServerStatsR).activeThreads
    ∧ acceptor_step ⟨5, 9, 100, 120, 2⟩ = (AcceptAction.rejected, ⟨5, 9, 100, 120, 2⟩) :=
  ⟨by decide, ceiling_rejection ⟨5, 9, 100, 120, 2⟩ (by decide)⟩
